/-
  Verification of the SSE transport layer of the azure-pricing-mcp repository.

  The embedding covers:
  * `iter_sse_lines` — the minimal SSE parser of `sse_list_tools.py`;
  * the probe-client event loop of `sse_list_tools.main`;
  * `create_app` — the route table construction of `azure_pricing_server_sse.py`;
  * `message_asgi` — the POST exception wrapper of `azure_pricing_server_sse.py`;
  * a spec-modelled session transport (`handle_post_message`), since the
    session registry lives in the external `mcp` library.

  Python string primitives (`str.strip`, `str.startswith`, `str.split(c, 1)[1]`,
  `"\n".join`) are embedded as functions on the character list underlying a
  `String`, mirroring Python semantics on the whitespace set recognised by
  `Char.isWhitespace`.
-/
import Mathlib

namespace AzurePricingSSE

/-! ### Python string primitives -/

/-- Characters removed by Python `str.strip()` (model: Lean's whitespace set). -/
def pyWS (c : Char) : Bool := c.isWhitespace

/-- The character list of `s.strip()`: drop whitespace from the front, then
from the back (via reverse). -/
def stripData (l : List Char) : List Char :=
  (((l.dropWhile pyWS).reverse.dropWhile pyWS)).reverse

/-- Python `s.strip()`. -/
def pyStrip (s : String) : String := ⟨stripData s.data⟩

/-- Python `s.startswith(p)`. -/
def pyStartswith (s p : String) : Bool := List.isPrefixOf p.data s.data

/-- Python `s.endswith(p)`. -/
def pyEndswith (s p : String) : Bool := List.isSuffixOf p.data s.data

/-- Python `s.split(":", 1)[1]`: everything after the first colon.  The source
only evaluates this on lines that are known to contain a colon (they start
with `"event:"` or `"data:"`); on a colon-free string this model returns `""`. -/
def pySplitColonTail (s : String) : String :=
  ⟨(s.data.dropWhile (fun c => c != ':')).drop 1⟩

/-- Python `"\n".join(xs)`. -/
def pyJoinNL (xs : List String) : String := String.intercalate "\n" xs

/-! ### The SSE decoder `iter_sse_lines` (src/sse_list_tools.py lines 22-42) -/

/-- Python truthiness of the `event` variable (`None` and `""` are falsy). -/
def eventTruthy : Option String → Bool
  | none => false
  | some s => !(s == "")

/-- Python `event or "message"`. -/
def eventOrMessage : Option String → String
  | none => "message"
  | some s => if s == "" then "message" else s

/-- The `yield` guarded by `if event or data_lines:` — emits the pending
(event, data) pair exactly when the accumulation is truthy. -/
def emitPending (event : Option String) (dataLines : List String) :
    List (String × String) :=
  if eventTruthy event || !dataLines.isEmpty then
    [(eventOrMessage event, pyJoinNL dataLines)]
  else []

/-- The loop body of `iter_sse_lines`, carrying the accumulator `(event,
data_lines)` through the remaining raw lines.  The `raw is None` guard of the
source is unrepresentable here (lines are plain strings). -/
def iterSSEAux (event : Option String) (dataLines : List String) :
    List String → List (String × String)
  | [] => emitPending event dataLines
  | raw :: rest =>
    let line := pyStrip raw
    if line == "" then
      emitPending event dataLines ++ iterSSEAux none [] rest
    else if pyStartswith line ":" then
      iterSSEAux event dataLines rest
    else if pyStartswith line "event:" then
      iterSSEAux (some (pyStrip (pySplitColonTail line))) dataLines rest
    else if pyStartswith line "data:" then
      iterSSEAux event (dataLines ++ [pyStrip (pySplitColonTail line)]) rest
    else
      iterSSEAux event dataLines rest

/-- `iter_sse_lines`: the minimal SSE parser yielding (event, data) pairs,
starting from the empty accumulator (`event = None`, `data_lines = []`). -/
def iter_sse_lines (lines : List String) : List (String × String) :=
  iterSSEAux none [] lines

/-- One loop iteration's effect on the accumulator `(event, data_lines)`;
mirrors the branches of `iter_sse_lines` one-to-one (a blank line resets the
accumulator after dispatching). -/
def stepAccum (st : Option String × List String) (raw : String) :
    Option String × List String :=
  let line := pyStrip raw
  if line == "" then (none, [])
  else if pyStartswith line ":" then st
  else if pyStartswith line "event:" then
    (some (pyStrip (pySplitColonTail line)), st.2)
  else if pyStartswith line "data:" then
    (st.1, st.2 ++ [pyStrip (pySplitColonTail line)])
  else st

/-- The accumulator after the decoder has consumed `lines`, starting empty. -/
def accumOf (lines : List String) : Option String × List String :=
  lines.foldl stepAccum (none, [])

/-- A non-blank line containing no colon at all (so in particular neither a
comment, an `event:` field nor a `data:` field). -/
def noColonNonBlank (raw : String) : Bool :=
  !(pyStrip raw == "") && !((pyStrip raw).data.contains ':')

/-- Modelled from the spec (§4.1): the SSE encoder, which is not part of the
probe script (`encode(event_name optional, payload text)` producing
well-formed `event:`/`data:` lines plus a terminating blank line, splitting
multi-line payloads into multiple `data:` lines).  The multi-line payload is
represented by its list of lines; the payload text it denotes is
`pyJoinNL payloadLines`. -/
def encodeSSE (event : Option String) (payloadLines : List String) :
    List String :=
  (match event with
    | none => []
    | some e => ["event: " ++ e]) ++
    payloadLines.map (fun l => "data: " ++ l) ++ [""]

/-- A string unchanged by Python `str.strip()` (no leading or trailing
whitespace). -/
abbrev stripInvariant (s : String) : Prop := pyStrip s = s

/-! ### The probe client's event loop (src/sse_list_tools.py lines 49-143)

`main` opens the SSE stream, iterates over the (event, data) pairs produced
by `iter_sse_lines`, and reacts to them.  The loop is embedded as a step
function over an explicit state.  Library collaborators are modelled:
`json.loads data` becomes the `parsed` field carried by each event (`none`
models a `json.JSONDecodeError`), and `time.time() - start` at the loop's
budget check becomes the `elapsed` field (a rational, modelling the float). -/

/-- Value of a hexadecimal digit, for percent-decoding. -/
def hexDigitVal (c : Char) : Option Nat :=
  if '0' ≤ c ∧ c ≤ '9' then some (c.toNat - '0'.toNat)
  else if 'a' ≤ c ∧ c ≤ 'f' then some (c.toNat - 'a'.toNat + 10)
  else if 'A' ≤ c ∧ c ≤ 'F' then some (c.toNat - 'A'.toNat + 10)
  else none

/-- Modelled percent-decoding for `urllib.parse.unquote`, restricted to
single-byte escapes: each `%XY` with hex digits X, Y becomes the character of
code `16*X + Y`; malformed escapes pass through unchanged. -/
def unquoteData : List Char → List Char
  | [] => []
  | c :: rest =>
    if c = '%' then
      match rest with
      | a :: b :: rest' =>
        match hexDigitVal a, hexDigitVal b with
        | some x, some y => Char.ofNat (16 * x + y) :: unquoteData rest'
        | _, _ => c :: unquoteData (a :: b :: rest')
      | r => c :: unquoteData r
    else c :: unquoteData rest

/-- Python `urllib.parse.unquote`. -/
def unquote (s : String) : String := ⟨unquoteData s.data⟩

/-- Simplified model of `urllib.parse.urljoin` for the references the probe
resolves: an absolute-path reference (starting with `/`) against a base URL
with no trailing slash; anything else is returned as-is (the probe treats
the result opaquely). -/
def urljoin (base rel : String) : String :=
  if pyStartswith rel "/" then base ++ rel else rel

/-- A JSON-RPC `id` value: string or number. -/
inductive JsonId
  | str (s : String)
  | num (n : Int)
deriving DecidableEq

/-- Name and description of one tool entry of a `tools/list` result. -/
structure ToolInfo where
  name : Option String
  description : Option String
deriving DecidableEq

/-- The `"result"` object of a decoded message; `tools = some ts` models the
presence of a `"tools"` key (`msg["result"].get("tools", [])`). -/
structure JsonResult where
  tools : Option (List ToolInfo)
deriving DecidableEq

/-- The fields of a `json.loads`-decoded message the probe inspects:
`msgId` models `msg.get("id")` and `result` the optional `"result"` entry. -/
structure JsonMsg where
  msgId : Option JsonId
  result : Option JsonResult
deriving DecidableEq

/-- One decoded SSE event as consumed by the probe loop. -/
structure CEvent where
  name : String
  data : String
  parsed : Option JsonMsg
  elapsed : ℚ
deriving DecidableEq

/-- The probe's configuration used by the loop: `--base-url` and
`--max-wait`. -/
structure ProbeArgs where
  baseUrl : String
  maxWait : ℚ

/-- `init_id = "init-1"` (line 61). -/
def initId : String := "init-1"

/-- `list_id = "list-1"` (line 62). -/
def listId : String := "list-1"

/-- The mutable loop state: `message_url` and `tools_result`. -/
structure ClientState where
  messageUrl : Option String
  toolsResult : Option (List ToolInfo)
deriving DecidableEq

/-- Loop state before the first event: `message_url = None`,
`tools_result = None` (lines 77-78). -/
def initClientState : ClientState := ⟨none, none⟩

/-- Observable actions of the loop: consuming one decoded event from the
stream, or POSTing a JSON-RPC request with the given body id to a URL. -/
inductive CAction
  | consume (e : CEvent)
  | post (url : String) (rid : String)
deriving DecidableEq

/-- Whether an action is a POST. -/
def isPost : CAction → Bool
  | .post _ _ => true
  | .consume _ => false

/-- The successful `tools/list` response the loop matches on: a `message`
event whose JSON body has `id == list_id` and a `"result"` key (line 118). -/
def isMatchEvent (e : CEvent) : Bool :=
  e.name == "message" &&
    (match e.parsed with
      | none => false
      | some m => m.msgId == some (JsonId.str listId) && m.result.isSome)

/-- The per-iteration budget check `if time.time() - start > args.max_wait:
break` (lines 122-124). -/
def budgetCheck (args : ProbeArgs) (st : ClientState) (e : CEvent) :
    ClientState × List CAction × Bool :=
  if e.elapsed > args.maxWait then (st, [], true) else (st, [], false)

/-- One iteration of the probe's event loop (lines 80-124): the new state,
the POSTs issued during the iteration, and whether the loop `break`s after
this event. -/
def clientStep (args : ProbeArgs) (st : ClientState) (e : CEvent) :
    ClientState × List CAction × Bool :=
  if e.name == "endpoint" && st.messageUrl.isNone then
    let u := urljoin args.baseUrl (unquote e.data)
    (⟨some u, st.toolsResult⟩,
      [CAction.post u initId, CAction.post u listId], false)
  else if e.name == "message" then
    match e.parsed with
    | none => (st, [], false)
    | some m =>
      if m.msgId == some (JsonId.str listId) then
        match m.result with
        | some r => (⟨st.messageUrl, some (r.tools.getD [])⟩, [], true)
        | none => budgetCheck args st e
      else budgetCheck args st e
  else budgetCheck args st e

/-- The probe's event loop over the decoded events, recording the trace of
consumed events and issued POSTs and stopping at a `break`. -/
def runClient (args : ProbeArgs) (st : ClientState) :
    List CEvent → ClientState × List CAction
  | [] => (st, [])
  | e :: rest =>
    let r := clientStep args st e
    if r.2.2 then (r.1, CAction.consume e :: r.2.1)
    else
      let k := runClient args r.1 rest
      (k.1, CAction.consume e :: r.2.1 ++ k.2)

/-- The exit status of `main`, given the outcome of opening and reading the
stream: `requests.HTTPError` and other `requests.RequestException`s are
caught and reported (exit 1, lines 136-143); otherwise the loop runs and
`main` returns 0 exactly when `tools_result` was set (lines 126-135). -/
def mainResult (args : ProbeArgs)
    (stream : Except String (List CEvent)) : Nat :=
  match stream with
  | .error _ => 1
  | .ok evs =>
    match (runClient args initClientState evs).1.toolsResult with
    | none => 1
    | some _ => 0

/-! ### The server application (src/azure_pricing_server_sse.py)

`create_app` builds the Starlette route table; route matching itself lives in
Starlette and is modelled from the spec's description (§4.4: "with and
without a trailing slash both accepted, never redirected").  The session
transport (`SseServerTransport.handle_post_message`) lives in the external
`mcp` library and is modelled from the spec (§4.2, §4.4, §7). -/

/-- The three request handlers `create_app` binds. -/
inductive HandlerId
  | health
  | sse
  | message
deriving DecidableEq

/-- One Starlette `Route(path, endpoint, methods)` entry. -/
structure RouteEntry where
  path : String
  methods : List String
  handler : HandlerId
deriving DecidableEq

/-- The Starlette application as far as routing is concerned: the route
table, in registration order, and the `redirect_slashes` flag. -/
structure StarletteApp where
  routes : List RouteEntry
  redirect_slashes : Bool

/-- Line 28: `message_path = MESSAGE_PATH if MESSAGE_PATH.startswith("/")
else f"/{MESSAGE_PATH}"`. -/
def normMessagePath (messagePath : String) : String :=
  if pyStartswith messagePath "/" then messagePath else "/" ++ messagePath

/-- Line 29: `message_path_slash = message_path if message_path.endswith("/")
else f"{message_path}/"`. -/
def messagePathSlash (p : String) : String :=
  if pyEndswith p "/" then p else p ++ "/"

/-- `create_app` (lines 25-80), parameterised by the configurable `SSE_PATH`
and `MESSAGE_PATH` environment values: registers `/health` (GET), the SSE
stream route (GET), and the POST message endpoint at both the normalised
message path and its trailing-slash variant — both bound to the same
handler — and disables automatic slash redirects (line 79). -/
def create_app (ssePath messagePath : String) : StarletteApp :=
  { routes :=
      [⟨"/health", ["GET"], HandlerId.health⟩,
        ⟨ssePath, ["GET"], HandlerId.sse⟩,
        ⟨normMessagePath messagePath, ["POST"], HandlerId.message⟩,
        ⟨messagePathSlash (normMessagePath messagePath), ["POST"],
          HandlerId.message⟩],
    redirect_slashes := false }

/-- Outcome of routing one request. -/
inductive Dispatch
  | handled (h : HandlerId)
  | redirect (target : String)
  | notFound
deriving DecidableEq

/-- The request path with its trailing slash toggled. -/
def toggleSlash (path : String) : String :=
  if pyEndswith path "/" then ⟨path.data.dropLast⟩ else path ++ "/"

/-- First route whose path equals the request path and whose method list
contains the request method. -/
def findRoute (routes : List RouteEntry) (method path : String) :
    Option HandlerId :=
  (routes.find? fun r => r.path == path && r.methods.contains method).map
    (fun r => r.handler)

/-- Modelled from the spec (§4.4): Starlette route matching — dispatch to the
first route matching path and method exactly; with no exact match,
`redirect_slashes` enabled would answer with a redirect to the slash-toggled
path when that one matches; disabled, the request is simply not found. -/
def dispatch (app : StarletteApp) (method path : String) : Dispatch :=
  match findRoute app.routes method path with
  | some h => Dispatch.handled h
  | none =>
    if app.redirect_slashes then
      match findRoute app.routes method (toggleSlash path) with
      | some _ => Dispatch.redirect (toggleSlash path)
      | none => Dispatch.notFound
    else Dispatch.notFound

/-- Lifecycle state of a modelled duplex session. -/
inductive SessionState
  | opened
  | draining
  | closed
deriving DecidableEq

/-- A JSON-RPC envelope, as validated by the transport before queuing. -/
inductive Envelope
  | request (rid : JsonId) (method : String)
  | notification (method : String)
  | response (rid : JsonId) (isError : Bool)
deriving DecidableEq

/-- One server-side session: the opaque identifier, the lifecycle state and
the inbound queue of envelopes accepted from POSTs. -/
structure Session where
  sid : String
  state : SessionState
  inbound : List Envelope
deriving DecidableEq

/-- Look a session up by identifier in the registry. -/
def lookupSession (reg : List Session) (sid : String) : Option Session :=
  reg.find? fun s => s.sid == sid

/-- Append an envelope to the inbound queue of the session with the given
identifier. -/
def enqueueSession (reg : List Session) (sid : String) (env : Envelope) :
    List Session :=
  reg.map fun s =>
    if s.sid == sid then ⟨s.sid, s.state, s.inbound ++ [env]⟩ else s

/-- The immediate HTTP response to a POST. -/
structure PostResponse where
  status : Nat
deriving DecidableEq

/-- Modelled from the spec: `SseServerTransport.handle_post_message` of the
external `mcp` library (§4.2, §4.4, §7).  The session id is extracted from
the request (`none` models a request carrying no id); a missing, unknown or
non-open session id is rejected with a client-error status with nothing
queued anywhere; otherwise a body failing JSON-RPC envelope validation
(represented post-parse as `none`) is rejected with a client-error status,
and a valid envelope is queued to that session's inbound channel and
acknowledged immediately, independent of any later outbound response. -/
def handle_post_message (reg : List Session) (sid : Option String)
    (body : Option Envelope) : PostResponse × List Session :=
  match sid with
  | none => (⟨400⟩, reg)
  | some s =>
    match lookupSession reg s with
    | none => (⟨404⟩, reg)
    | some sess =>
      match sess.state with
      | SessionState.opened =>
        match body with
        | none => (⟨400⟩, reg)
        | some env => (⟨202⟩, enqueueSession reg s env)
      | _ => (⟨404⟩, reg)

/-- The ASGI exception wrapper `message_asgi` (lines 42-52): the handler's
outcome is passed through unchanged; an exception is caught, logged, and
turned into a 500 plain-text response. -/
def message_asgi (outcome : Except String PostResponse) : PostResponse :=
  match outcome with
  | .ok r => r
  | .error _ => ⟨500⟩

example : iter_sse_lines ["event: endpoint", "data: /messages?x=1", ""] =
    [("endpoint", "/messages?x=1")] := by decide

example : iter_sse_lines ["data: a", "data: b", "", ": heartbeat", "data: c"] =
    [("message", "a\nb"), ("message", "c")] := by decide

example : iter_sse_lines ["data", ""] = [] := by decide

/-! ### The accumulator view of the decoder loop -/

theorem iterSSEAux_cons_nonblank (ev : Option String) (dl : List String)
    (raw : String) (rest : List String) (h : pyStrip raw ≠ "") :
    iterSSEAux ev dl (raw :: rest) =
      iterSSEAux (stepAccum (ev, dl) raw).1 (stepAccum (ev, dl) raw).2 rest := by
  have hb : (pyStrip raw == "") = false := by
    simpa using h
  simp only [iterSSEAux, stepAccum, hb, Bool.false_eq_true, if_false]
  split_ifs <;> rfl

theorem iterSSEAux_noblank_eq_emit (lines : List String) :
    ∀ (ev : Option String) (dl : List String),
      (∀ raw ∈ lines, pyStrip raw ≠ "") →
      iterSSEAux ev dl lines =
        emitPending (lines.foldl stepAccum (ev, dl)).1
          (lines.foldl stepAccum (ev, dl)).2 := by
  induction lines with
  | nil => intro ev dl _; rfl
  | cons raw rest ih =>
    intro ev dl h
    rw [iterSSEAux_cons_nonblank ev dl raw rest (h raw (by simp))]
    rw [ih _ _ (fun r hr => h r (by simp [hr]))]
    simp [List.foldl_cons]

theorem iterSSEAux_append_blank (pre : List String) :
    ∀ (ev : Option String) (dl : List String) (b : String) (rest : List String),
      (∀ raw ∈ pre, pyStrip raw ≠ "") → pyStrip b = "" →
      iterSSEAux ev dl (pre ++ b :: rest) =
        emitPending (pre.foldl stepAccum (ev, dl)).1
            (pre.foldl stepAccum (ev, dl)).2 ++
          iterSSEAux none [] rest := by
  induction pre with
  | nil =>
    intro ev dl b rest _ hb
    have hb' : (pyStrip b == "") = true := by simpa using hb
    simp only [List.nil_append, List.foldl_nil, iterSSEAux, hb', if_true]
  | cons raw pre' ih =>
    intro ev dl b rest h hb
    rw [List.cons_append,
      iterSSEAux_cons_nonblank ev dl raw _ (h raw (by simp))]
    rw [ih _ _ b rest (fun r hr => h r (by simp [hr])) hb]
    simp [List.foldl_cons]

/-- C5: a blank line (any line that strips to the empty string) dispatches the
accumulated (event, data) pair — with the event name defaulting to `"message"`
when no `event:` line was seen, which is what `emitPending`/`eventOrMessage`
encode — and resets the accumulator, so the lines after the blank line are
decoded from a fresh empty accumulator. -/
theorem c5_blank_line_dispatch (pre : List String) (b : String)
    (rest : List String) (hpre : ∀ raw ∈ pre, pyStrip raw ≠ "")
    (hb : pyStrip b = "") :
    iter_sse_lines (pre ++ b :: rest) =
      emitPending (accumOf pre).1 (accumOf pre).2 ++ iter_sse_lines rest :=
  iterSSEAux_append_blank pre none [] b rest hpre hb

/-- Witness for C5 at a concrete stream: `event: x` / `data: a`, blank,
then a fresh `data: b` event flushed at end of input. -/
theorem c5_blank_line_dispatch_witness :
    iter_sse_lines ["event: x", "data: a", "", "data: b"] =
      [("x", "a"), ("message", "b")] := by
  have h := c5_blank_line_dispatch ["event: x", "data: a"] "" ["data: b"]
    (by decide) (by decide)
  simp only [List.cons_append, List.nil_append] at h
  rw [h]
  decide

/-- C9 (implicit): at end of the input stream, the decoder dispatches the
pending accumulation as a final (event, data) pair exactly when it is
non-empty in Python's sense (a non-empty event name, or at least one data
line); an empty accumulation yields nothing.  Stated for streams without
blank lines, so `accumOf lines` is the whole pending accumulation. -/
theorem c9_eof_flush (lines : List String)
    (h : ∀ raw ∈ lines, pyStrip raw ≠ "") :
    iter_sse_lines lines =
      if eventTruthy (accumOf lines).1 || !(accumOf lines).2.isEmpty then
        [(eventOrMessage (accumOf lines).1, pyJoinNL (accumOf lines).2)]
      else [] :=
  iterSSEAux_noblank_eq_emit lines none [] h

/-- Witness for C9: one never-terminated event is flushed; an empty stream
and a stream of only comments yield nothing. -/
theorem c9_eof_flush_witness :
    iter_sse_lines ["data: hi"] = [("message", "hi")] ∧
      iter_sse_lines [": ping"] = [] := by
  constructor
  · rw [c9_eof_flush ["data: hi"] (by decide)]; decide
  · rw [c9_eof_flush [": ping"] (by decide)]; decide

/-! ### Lines that the decoder ignores (claims C6 and C7) -/

theorem mem_of_pyStartswith {s p : String} {c : Char} (hc : c ∈ p.data)
    (h : pyStartswith s p = true) : c ∈ s.data := by
  have hpre : p.data <+: s.data := by
    simpa [pyStartswith] using h
  exact hpre.subset hc

theorem pyStrip_ne_empty_of_pyStartswith {s p : String} (hp : p.data ≠ [])
    (h : pyStartswith s p = true) : s ≠ "" := by
  intro hs
  subst hs
  have hpre : p.data <+: ([] : List Char) := by
    simpa [pyStartswith] using h
  exact hp (List.prefix_nil.mp hpre)

/-- Dropping lines that are skipped by every iteration (non-blank lines that
leave the accumulator unchanged) does not change the decoder's output. -/
theorem iterSSEAux_filter_neutral (keep : String → Bool)
    (hk : ∀ raw, keep raw = false →
      pyStrip raw ≠ "" ∧ ∀ st, stepAccum st raw = st) :
    ∀ (lines : List String) (ev : Option String) (dl : List String),
      iterSSEAux ev dl lines = iterSSEAux ev dl (lines.filter keep) := by
  intro lines
  induction lines with
  | nil => intro ev dl; rfl
  | cons raw rest ih =>
    intro ev dl
    by_cases hkeep : keep raw = true
    · rw [List.filter_cons_of_pos hkeep]
      by_cases hb : pyStrip raw = ""
      · have hb' : (pyStrip raw == "") = true := by simpa using hb
        simp only [iterSSEAux, hb', if_true]
        rw [ih none []]
      · rw [iterSSEAux_cons_nonblank ev dl raw rest hb,
          iterSSEAux_cons_nonblank _ _ raw (rest.filter keep) hb]
        exact ih _ _
    · have hkeep' : keep raw = false := by simpa using hkeep
      obtain ⟨hb, hst⟩ := hk raw hkeep'
      rw [List.filter_cons_of_neg (by simp [hkeep'])]
      rw [iterSSEAux_cons_nonblank ev dl raw rest hb, hst (ev, dl)]
      exact ih ev dl

/-- C6: a line beginning with `:` (after stripping) is a comment/heartbeat and
is dropped without altering the in-progress accumulation: the decoded output
of a stream equals the decoded output of the stream with all comment lines
removed. -/
theorem c6_comment_lines_dropped (lines : List String) :
    iter_sse_lines lines =
      iter_sse_lines
        (lines.filter fun raw => !pyStartswith (pyStrip raw) ":") := by
  apply iterSSEAux_filter_neutral
  intro raw hraw
  have hc : pyStartswith (pyStrip raw) ":" = true := by
    simpa using hraw
  have hb : pyStrip raw ≠ "" := by
    intro hs
    rw [hs] at hc
    exact Bool.false_ne_true hc
  refine ⟨hb, fun st => ?_⟩
  have hb' : (pyStrip raw == "") = false := by simpa using hb
  simp only [stepAccum, hb', Bool.false_eq_true, if_false, hc, if_true]

/-- C7 counterexample: the claim says a non-blank line with no colon is
treated as a field name with an empty value.  The colon-free line `"data"`
would then behave like the line `"data:"` (field `data`, empty value), which
appends an empty data line and makes the following blank line dispatch
`("message", "")`.  The decoder instead ignores `"data"` entirely, so the
two streams decode differently. -/
theorem c7_counterexample :
    iter_sse_lines ["data", ""] = [] ∧
      iter_sse_lines ["data:", ""] = [("message", "")] := by decide

/-- C7 amended: every non-blank input line containing no colon is ignored
outright (not interpreted as a field): no error is raised, the line leaves
the accumulator untouched, and the decoded output of a stream equals the
decoded output of the stream with all such lines removed. -/
theorem c7_no_colon_lines_ignored (lines : List String) :
    iter_sse_lines lines =
      iter_sse_lines (lines.filter fun raw => !noColonNonBlank raw) := by
  apply iterSSEAux_filter_neutral
  intro raw hraw
  have h : noColonNonBlank raw = true := by simpa using hraw
  simp only [noColonNonBlank, Bool.and_eq_true, Bool.not_eq_true'] at h
  obtain ⟨hb, hnc⟩ := h
  have hmem : ':' ∉ (pyStrip raw).data := by
    simpa [List.elem_eq_mem] using hnc
  have hb' : pyStrip raw ≠ "" := by simpa using hb
  refine ⟨hb', fun st => ?_⟩
  have h1 : pyStartswith (pyStrip raw) ":" = false := by
    cases hcv : pyStartswith (pyStrip raw) ":"
    · rfl
    · exact absurd (mem_of_pyStartswith (by decide) hcv) hmem
  have h2 : pyStartswith (pyStrip raw) "event:" = false := by
    cases hcv : pyStartswith (pyStrip raw) "event:"
    · rfl
    · exact absurd (mem_of_pyStartswith (by decide) hcv) hmem
  have h3 : pyStartswith (pyStrip raw) "data:" = false := by
    cases hcv : pyStartswith (pyStrip raw) "data:"
    · rfl
    · exact absurd (mem_of_pyStartswith (by decide) hcv) hmem
  simp only [stepAccum, hb, h1, h2, h3, Bool.false_eq_true, if_false]

/-! ### Round-tripping the spec's encoder through `iter_sse_lines` (claim C1) -/

theorem data_ne_nil_of_ne_empty {s : String} (h : s ≠ "") : s.data ≠ [] := by
  intro hd
  exact h (String.ext (hd.trans rfl))

theorem dropWhile_of_stripInvariant {s : String} (h : stripInvariant s) :
    s.data.dropWhile pyWS = s.data ∧
      s.data.reverse.dropWhile pyWS = s.data.reverse := by
  have hd : stripData s.data = s.data := congrArg String.data h
  unfold stripData at hd
  have hlen1 : (s.data.dropWhile pyWS).length ≤ s.data.length :=
    (List.dropWhile_suffix pyWS).length_le
  have hlen2 :
      ((s.data.dropWhile pyWS).reverse.dropWhile pyWS).length ≤
        (s.data.dropWhile pyWS).reverse.length :=
    (List.dropWhile_suffix pyWS).length_le
  have hlenb :
      ((s.data.dropWhile pyWS).reverse.dropWhile pyWS).length =
        s.data.length := by
    have := congrArg List.length hd
    simpa using this
  have hlena : (s.data.dropWhile pyWS).length = s.data.length := by
    simp only [List.length_reverse] at hlen2
    omega
  have haeq : s.data.dropWhile pyWS = s.data :=
    (List.dropWhile_suffix pyWS).eq_of_length hlena
  refine ⟨haeq, ?_⟩
  have hbeq :
      (s.data.dropWhile pyWS).reverse.dropWhile pyWS =
        (s.data.dropWhile pyWS).reverse :=
    (List.dropWhile_suffix pyWS).eq_of_length (by simp [hlena, hlenb])
  rw [haeq] at hbeq
  exact hbeq

/-- `pyStrip` is the identity on `pre ++ s` when `pre` starts with a
non-whitespace character and `s` is non-empty with no trailing whitespace. -/
theorem pyStrip_append_eq_self {pre s : String}
    (hpre : pre.data.dropWhile pyWS = pre.data) (hpne : pre.data ≠ [])
    (hs : s.data.reverse.dropWhile pyWS = s.data.reverse)
    (hsne : s.data ≠ []) :
    pyStrip (pre ++ s) = pre ++ s := by
  apply String.ext
  show stripData (pre ++ s).data = (pre ++ s).data
  rw [String.data_append]
  unfold stripData
  rw [List.dropWhile_append]
  have hne : (pre.data.dropWhile pyWS).isEmpty = false := by
    rw [hpre]
    simpa [List.isEmpty_iff] using hpne
  rw [hne]
  simp only [Bool.false_eq_true, if_false, hpre, List.reverse_append]
  rw [List.dropWhile_append]
  have hne2 : (s.data.reverse.dropWhile pyWS).isEmpty = false := by
    rw [hs]
    simpa [List.isEmpty_iff] using hsne
  rw [hne2]
  simp [hs]

/-- `pyStrip` removes exactly the artificial leading space inserted by the
field syntax `"data: " ++ l` when `l` itself is strip-invariant. -/
theorem pyStrip_space_append {s : String}
    (h1 : s.data.dropWhile pyWS = s.data)
    (h2 : s.data.reverse.dropWhile pyWS = s.data.reverse) :
    pyStrip (" " ++ s) = s := by
  apply String.ext
  show stripData (" " ++ s).data = s.data
  rw [String.data_append]
  unfold stripData
  have : (" ".data ++ s.data).dropWhile pyWS = s.data := by
    rw [List.dropWhile_append]
    simp [List.dropWhile, pyWS, h1]
  rw [this, h2]
  simp

theorem pySplitColonTail_event (e : String) :
    pySplitColonTail ("event: " ++ e) = " " ++ e := by
  apply String.ext
  show ((("event: " ++ e).data.dropWhile (fun c => c != ':')).drop 1) =
    (" " ++ e).data
  rw [String.data_append, String.data_append, List.dropWhile_append]
  have h1 : "event: ".data.dropWhile (fun c => c != ':') = [':', ' '] := by
    decide
  rw [h1]
  simp

theorem pySplitColonTail_data (l : String) :
    pySplitColonTail ("data: " ++ l) = " " ++ l := by
  apply String.ext
  show ((("data: " ++ l).data.dropWhile (fun c => c != ':')).drop 1) =
    (" " ++ l).data
  rw [String.data_append, String.data_append, List.dropWhile_append]
  have h1 : "data: ".data.dropWhile (fun c => c != ':') = [':', ' '] := by
    decide
  rw [h1]
  simp

theorem stepAccum_event_line {e : String} (he : stripInvariant e)
    (hne : e ≠ "") (st : Option String × List String) :
    stepAccum st ("event: " ++ e) = (some e, st.2) := by
  obtain ⟨h1, h2⟩ := dropWhile_of_stripInvariant he
  have hstrip : pyStrip ("event: " ++ e) = "event: " ++ e :=
    pyStrip_append_eq_self (by decide) (by decide) h2
      (data_ne_nil_of_ne_empty hne)
  have hnb : (("event: " ++ e) == "") = false := by
    have : ("event: " ++ e) ≠ "" := by
      intro h
      have := congrArg String.data h
      rw [String.data_append] at this
      exact absurd (List.append_eq_nil.mp this).1 (by decide)
    simpa using this
  have hc1 : pyStartswith ("event: " ++ e) ":" = false := rfl
  have hc2 : pyStartswith ("event: " ++ e) "event:" = true := rfl
  simp only [stepAccum, hstrip, hnb, Bool.false_eq_true, if_false, hc1, hc2,
    if_true]
  rw [pySplitColonTail_event, pyStrip_space_append h1 h2]

theorem stepAccum_data_line {l : String} (hl : stripInvariant l)
    (st : Option String × List String) :
    stepAccum st ("data: " ++ l) = (st.1, st.2 ++ [l]) := by
  obtain ⟨h1, h2⟩ := dropWhile_of_stripInvariant hl
  by_cases hle : l = ""
  · subst hle
    rfl
  · have hstrip : pyStrip ("data: " ++ l) = "data: " ++ l :=
      pyStrip_append_eq_self (by decide) (by decide) h2
        (data_ne_nil_of_ne_empty hle)
    have hnb : (("data: " ++ l) == "") = false := by
      have : ("data: " ++ l) ≠ "" := by
        intro h
        have := congrArg String.data h
        rw [String.data_append] at this
        exact absurd (List.append_eq_nil.mp this).1 (by decide)
      simpa using this
    have hc1 : pyStartswith ("data: " ++ l) ":" = false := rfl
    have hc2 : pyStartswith ("data: " ++ l) "event:" = false := rfl
    have hc3 : pyStartswith ("data: " ++ l) "data:" = true := rfl
    simp only [stepAccum, hstrip, hnb, Bool.false_eq_true, if_false, hc1, hc2,
      hc3, if_true]
    rw [pySplitColonTail_data, pyStrip_space_append h1 h2]

theorem pyStrip_event_line_ne_empty {e : String} (he : stripInvariant e)
    (hne : e ≠ "") : pyStrip ("event: " ++ e) ≠ "" := by
  obtain ⟨_, h2⟩ := dropWhile_of_stripInvariant he
  rw [pyStrip_append_eq_self (by decide) (by decide) h2
    (data_ne_nil_of_ne_empty hne)]
  intro h
  have := congrArg String.data h
  rw [String.data_append] at this
  exact absurd (List.append_eq_nil.mp this).1 (by decide)

theorem pyStrip_data_line_ne_empty {l : String} (hl : stripInvariant l) :
    pyStrip ("data: " ++ l) ≠ "" := by
  obtain ⟨_, h2⟩ := dropWhile_of_stripInvariant hl
  by_cases hle : l = ""
  · subst hle
    decide
  · rw [pyStrip_append_eq_self (by decide) (by decide) h2
      (data_ne_nil_of_ne_empty hle)]
    intro h
    have := congrArg String.data h
    rw [String.data_append] at this
    exact absurd (List.append_eq_nil.mp this).1 (by decide)

theorem iterSSEAux_data_section (ls : List String) :
    ∀ (ev : Option String) (dl : List String) (rest : List String),
      (∀ l ∈ ls, stripInvariant l) →
      iterSSEAux ev dl ((ls.map fun l => "data: " ++ l) ++ rest) =
        iterSSEAux ev (dl ++ ls) rest := by
  induction ls with
  | nil => intro ev dl rest _; simp
  | cons l ls' ih =>
    intro ev dl rest h
    rw [List.map_cons, List.cons_append,
      iterSSEAux_cons_nonblank ev dl _ _
        (pyStrip_data_line_ne_empty (h l (by simp))),
      stepAccum_data_line (h l (by simp))]
    rw [ih _ _ rest (fun x hx => h x (by simp [hx]))]
    simp

/-- C1 counterexample: the round-trip claim fails as soon as a payload line
carries leading or trailing whitespace, because the decoder strips every
`data:` line.  Encoding the pair (no event name, payload `" x"`) and decoding
it yields the payload `"x"`, not `" x"`. -/
theorem c1_counterexample :
    iter_sse_lines (encodeSSE none [" x"]) ≠
        [("message", pyJoinNL [" x"])] ∧
      iter_sse_lines (encodeSSE none [" x"]) = [("message", "x")] := by
  decide

/-- C1 amended: the encode/decode round-trip holds for every pair of an
optional event name and a non-empty multi-line payload in which the event
name (when present) is non-empty without leading or trailing whitespace and
every payload line is free of leading and trailing whitespace: decoding the
encoded lines yields exactly the event name (defaulting to `"message"` when
absent) and the payload text. -/
theorem c1_roundtrip (event : Option String) (payloadLines : List String)
    (hev : ∀ e, event = some e → stripInvariant e ∧ e ≠ "")
    (hne : payloadLines ≠ [])
    (hinv : ∀ l ∈ payloadLines, stripInvariant l) :
    iter_sse_lines (encodeSSE event payloadLines) =
      [(event.getD "message", pyJoinNL payloadLines)] := by
  cases event with
  | none =>
    show iterSSEAux none [] _ = _
    rw [encodeSSE]
    simp only [List.nil_append]
    rw [iterSSEAux_data_section payloadLines none [] [""] hinv]
    have hemit : emitPending none payloadLines =
        [("message", pyJoinNL payloadLines)] := by
      unfold emitPending
      have : payloadLines.isEmpty = false := by
        simpa [List.isEmpty_iff] using hne
      simp [eventTruthy, this, eventOrMessage]
    show emitPending none ([] ++ payloadLines) ++
        iterSSEAux none [] [] = _
    simp only [List.nil_append]
    rw [hemit]
    rfl
  | some e =>
    obtain ⟨hei, hnee⟩ := hev e rfl
    show iterSSEAux none [] _ = _
    rw [encodeSSE]
    simp only [List.cons_append, List.nil_append, List.singleton_append]
    rw [iterSSEAux_cons_nonblank none [] _ _
      (pyStrip_event_line_ne_empty hei hnee),
      stepAccum_event_line hei hnee]
    rw [iterSSEAux_data_section payloadLines (some e) [] [""] hinv]
    have hemit : emitPending (some e) payloadLines =
        [(e, pyJoinNL payloadLines)] := by
      unfold emitPending
      have ht : eventTruthy (some e) = true := by
        simpa [eventTruthy] using hnee
      have hn : eventOrMessage (some e) = e := by
        simp [eventOrMessage, hnee]
      simp [ht, hn]
    show emitPending (some e) ([] ++ payloadLines) ++
        iterSSEAux none [] [] = _
    simp only [List.nil_append]
    rw [hemit]
    rfl

/-- Witness for C1's amended round-trip: event `"endpoint"` with the two-line
payload `"a"`, `"b"`, and no event name with payload `"hi"`. -/
theorem c1_roundtrip_witness :
    iter_sse_lines (encodeSSE (some "endpoint") ["a", "b"]) =
        [("endpoint", "a\nb")] ∧
      iter_sse_lines (encodeSSE none ["hi"]) = [("message", "hi")] := by
  constructor
  · rw [c1_roundtrip (some "endpoint") ["a", "b"]
      (by intro e h; cases h; exact ⟨by decide, by decide⟩)
      (by decide) (by decide)]
    decide
  · rw [c1_roundtrip none ["hi"] (by intro e h; cases h)
      (by decide) (by decide)]
    decide

/-! ### Behaviour of the probe client loop (claims C2, C8, C10) -/

theorem budgetCheck_eq (args : ProbeArgs) (st : ClientState) (e : CEvent) :
    budgetCheck args st e = (st, [], decide (e.elapsed > args.maxWait)) := by
  unfold budgetCheck
  split_ifs with h <;> simp [h]

/-- A non-endpoint event whose iteration does not `break` leaves the state
unchanged and issues no POSTs. -/
theorem clientStep_skip {args : ProbeArgs} {st : ClientState} {e : CEvent}
    (hn : (e.name == "endpoint") = false)
    (hh : (clientStep args st e).2.2 = false) :
    clientStep args st e = (st, [], false) := by
  unfold clientStep at hh ⊢
  simp only [hn, Bool.false_and, Bool.false_eq_true, if_false] at hh ⊢
  cases hm : e.name == "message" <;>
    simp only [hm, Bool.false_eq_true, if_false, if_true] at hh ⊢
  · rw [budgetCheck_eq] at hh ⊢
    simp at hh
    simp [hh]
  · cases hp : e.parsed with
    | none => rfl
    | some m =>
      simp only [hp] at hh ⊢
      cases hid : m.msgId == some (JsonId.str listId) <;>
        simp only [hid, Bool.false_eq_true, if_false, if_true] at hh ⊢
      · rw [budgetCheck_eq] at hh ⊢
        simp at hh
        simp [hh]
      · cases hr : m.result with
        | none =>
          simp only [hr] at hh ⊢
          rw [budgetCheck_eq] at hh ⊢
          simp at hh
          simp [hh]
        | some r => simp [hr] at hh

/-- Once `message_url` is set, no iteration can enter the endpoint branch:
no POSTs are issued and `message_url` is never changed again. -/
theorem clientStep_url_preserved {args : ProbeArgs} {st : ClientState}
    {e : CEvent} (hu : st.messageUrl.isSome = true) :
    (clientStep args st e).1.messageUrl = st.messageUrl ∧
      (clientStep args st e).2.1 = [] := by
  unfold clientStep
  have hn : st.messageUrl.isNone = false := by
    simpa [Option.isNone_iff_eq_none] using hu
  simp only [hn, Bool.and_false, Bool.false_eq_true, if_false]
  cases hm : e.name == "message" <;>
    simp only [hm, Bool.false_eq_true, if_false, if_true]
  · simp [budgetCheck_eq]
  · cases hp : e.parsed with
    | none => simp
    | some m =>
      cases hid : m.msgId == some (JsonId.str listId) <;>
        simp only [hid, Bool.false_eq_true, if_false, if_true]
      · simp [budgetCheck_eq]
      · cases hr : m.result with
        | none => simp [budgetCheck_eq]
        | some r => simp

/-- An iteration on a non-matching event leaves `tools_result` unchanged. -/
theorem clientStep_toolsResult_preserved {args : ProbeArgs}
    {st : ClientState} {e : CEvent} (hm : isMatchEvent e = false) :
    (clientStep args st e).1.toolsResult = st.toolsResult := by
  unfold clientStep budgetCheck
  unfold isMatchEvent at hm
  repeat' split
  all_goals simp_all

/-- A matching event makes the iteration `break` with `tools_result` set,
issuing no POSTs and keeping `message_url`. -/
theorem clientStep_match {args : ProbeArgs} {st : ClientState} {e : CEvent}
    (hm : isMatchEvent e = true) :
    (clientStep args st e).2.2 = true ∧
      (clientStep args st e).2.1 = [] ∧
      (clientStep args st e).1.toolsResult.isSome = true ∧
      (clientStep args st e).1.messageUrl = st.messageUrl := by
  unfold isMatchEvent at hm
  simp only [Bool.and_eq_true] at hm
  obtain ⟨hmsg, hrest⟩ := hm
  cases hp : e.parsed with
  | none => rw [hp] at hrest; exact absurd hrest (by simp)
  | some m =>
    rw [hp] at hrest
    simp only [Bool.and_eq_true] at hrest
    obtain ⟨hid, hres⟩ := hrest
    have hne : (e.name == "endpoint") = false := by
      have : e.name = "message" := by simpa using hmsg
      simp [this]
    unfold clientStep
    simp only [hne, Bool.false_and, Bool.false_eq_true, if_false, hmsg,
      if_true, hp, hid]
    cases hr : m.result with
    | none => rw [hr] at hres; exact absurd hres (by simp)
    | some r => simp

/-- A non-endpoint, non-matching event that is not a non-JSON `message`
reaches the budget check, which decides the whole iteration. -/
theorem clientStep_check {args : ProbeArgs} {st : ClientState} {e : CEvent}
    (hn : (e.name == "endpoint") = false) (hm : isMatchEvent e = false)
    (hp : (e.name == "message") = true → e.parsed.isSome = true) :
    clientStep args st e = (st, [], decide (e.elapsed > args.maxWait)) := by
  unfold clientStep budgetCheck
  unfold isMatchEvent at hm
  repeat' split
  all_goals simp_all

theorem runClient_no_posts_url (args : ProbeArgs) (evs : List CEvent) :
    ∀ st : ClientState, st.messageUrl.isSome = true →
      (runClient args st evs).1.messageUrl = st.messageUrl ∧
        ∀ a ∈ (runClient args st evs).2, isPost a = false := by
  induction evs with
  | nil =>
    intro st _
    exact ⟨rfl, by intro a ha; simp [runClient] at ha⟩
  | cons e rest ih =>
    intro st hu
    obtain ⟨hurl, hposts⟩ :=
      @clientStep_url_preserved args st e hu
    simp only [runClient]
    by_cases hh : (clientStep args st e).2.2 = true
    · simp only [hh, if_true]
      refine ⟨hurl, ?_⟩
      intro a ha
      rw [hposts] at ha
      simp only [List.mem_singleton] at ha
      subst ha
      rfl
    · have hh' : (clientStep args st e).2.2 = false := by simpa using hh
      simp only [hh', Bool.false_eq_true, if_false]
      have hu' : (clientStep args st e).1.messageUrl.isSome = true := by
        rw [hurl]; exact hu
      obtain ⟨ih1, ih2⟩ := ih (clientStep args st e).1 hu'
      refine ⟨ih1.trans hurl, ?_⟩
      intro a ha
      rw [hposts] at ha
      simp only [List.singleton_append, List.mem_cons] at ha
      rcases ha with ha | ha
      · subst ha; rfl
      · exact ih2 a ha

theorem runClient_toolsResult_none (args : ProbeArgs) (evs : List CEvent) :
    ∀ st : ClientState, st.toolsResult = none →
      (∀ x ∈ evs, isMatchEvent x = false) →
      (runClient args st evs).1.toolsResult = none := by
  induction evs with
  | nil => intro st h _; exact h
  | cons e rest ih =>
    intro st h hall
    have hpres :=
      @clientStep_toolsResult_preserved args st e
        (hall e (by simp))
    simp only [runClient]
    by_cases hh : (clientStep args st e).2.2 = true
    · simp only [hh, if_true]
      exact hpres.trans h
    · have hh' : (clientStep args st e).2.2 = false := by simpa using hh
      simp only [hh', Bool.false_eq_true, if_false]
      exact ih _ (hpres.trans h) (fun x hx => hall x (by simp [hx]))

theorem runClient_pre_endpoint (args : ProbeArgs) (e : CEvent)
    (rest : List CEvent) (he : e.name = "endpoint") :
    ∀ pre : List CEvent,
      (∀ x ∈ pre, (x.name == "endpoint") = false ∧
        (clientStep args initClientState x).2.2 = false) →
      (runClient args initClientState (pre ++ e :: rest)).2 =
        pre.map CAction.consume ++
          CAction.consume e ::
          CAction.post (urljoin args.baseUrl (unquote e.data)) initId ::
          CAction.post (urljoin args.baseUrl (unquote e.data)) listId ::
          (runClient args
            ⟨some (urljoin args.baseUrl (unquote e.data)), none⟩ rest).2 := by
  intro pre
  induction pre with
  | nil =>
    intro _
    have hstep : clientStep args initClientState e =
        (⟨some (urljoin args.baseUrl (unquote e.data)), none⟩,
          [CAction.post (urljoin args.baseUrl (unquote e.data)) initId,
            CAction.post (urljoin args.baseUrl (unquote e.data)) listId],
          false) := by
      unfold clientStep
      simp [he, initClientState]
    simp [runClient, hstep]
  | cons x pre' ih =>
    intro hpre
    have hx := hpre x (by simp)
    have hskip := clientStep_skip hx.1 hx.2
    simp only [List.cons_append, runClient, hskip, Bool.false_eq_true,
      if_false, List.map_cons, List.append_eq]
    rw [ih (fun y hy => hpre y (by simp [hy]))]
    simp

/-- C2: from the empty state, on the first `endpoint` event of the stream
(no earlier event being an `endpoint` or breaking the loop), the probe
resolves the percent-decoded announced URL against the base address and POSTs
the `initialize` request then the `tools/list` request, both between
consuming that event and consuming any further event; and once `message_url`
is set it is never changed and no further POST is ever issued (so every later
`endpoint` event's URL is ignored). -/
theorem c2_first_endpoint_posts (args : ProbeArgs) (pre : List CEvent)
    (e : CEvent) (rest : List CEvent)
    (hpre : ∀ x ∈ pre, (x.name == "endpoint") = false ∧
      (clientStep args initClientState x).2.2 = false)
    (he : e.name = "endpoint") :
    (runClient args initClientState (pre ++ e :: rest)).2 =
        pre.map CAction.consume ++
          CAction.consume e ::
          CAction.post (urljoin args.baseUrl (unquote e.data)) initId ::
          CAction.post (urljoin args.baseUrl (unquote e.data)) listId ::
          (runClient args
            ⟨some (urljoin args.baseUrl (unquote e.data)), none⟩ rest).2 ∧
      ∀ (st : ClientState) (evs : List CEvent), st.messageUrl.isSome = true →
        (runClient args st evs).1.messageUrl = st.messageUrl ∧
          ∀ a ∈ (runClient args st evs).2, isPost a = false :=
  ⟨runClient_pre_endpoint args e rest he pre hpre,
    fun st evs hu => runClient_no_posts_url args evs st hu⟩

/-- Witness for C2: a heartbeat-like event precedes the endpoint event; the
probe consumes it, then consumes the endpoint event and immediately posts
`init-1` and `list-1` to the resolved URL. -/
theorem c2_first_endpoint_posts_witness :
    (runClient ⟨"http://h", 15⟩ initClientState
        [⟨"ping", "", none, 0⟩,
          ⟨"endpoint", "/messages%3Fa", none, 1⟩]).2 =
      [CAction.consume ⟨"ping", "", none, 0⟩,
        CAction.consume ⟨"endpoint", "/messages%3Fa", none, 1⟩,
        CAction.post "http://h/messages?a" "init-1",
        CAction.post "http://h/messages?a" "list-1"] := by
  have h := (c2_first_endpoint_posts ⟨"http://h", 15⟩
    [⟨"ping", "", none, 0⟩] ⟨"endpoint", "/messages%3Fa", none, 1⟩ []
    (by decide) rfl).1
  simp only [List.cons_append, List.nil_append] at h
  rw [h]
  decide

/-- C8 counterexample: the claim says the client stops once the wait budget
elapses.  Here the budget (15) has already elapsed when the first event
arrives (elapsed 100), but because a non-JSON `message` iteration skips the
budget check, the client goes on to consume a second event. -/
theorem c8_counterexample :
    (100 : ℚ) > 15 ∧
      (runClient ⟨"http://x", 15⟩ initClientState
          [⟨"message", "not json", none, 100⟩,
            ⟨"message", "also not json", none, 101⟩]).2 =
        [CAction.consume ⟨"message", "not json", none, 100⟩,
          CAction.consume ⟨"message", "also not json", none, 101⟩] := by
  decide

/-- C8 amended: the probe stops as soon as a response matching `list-1` with
a `"result"` key is consumed; the wait budget is checked only on iterations
that reach the per-event check (the endpoint-resolution iteration and
non-JSON `message` iterations skip it), and the probe stops at the first
check-reaching event after the budget; when no matching response is consumed
the run exits with status 1 (reported, not a crash), and HTTP or request
errors are caught, also yielding exit status 1. -/
theorem c8_stop_conditions (args : ProbeArgs) :
    (∀ err : String, mainResult args (.error err) = 1) ∧
      (∀ evs : List CEvent, (∀ x ∈ evs, isMatchEvent x = false) →
        mainResult args (.ok evs) = 1) ∧
      (∀ (st : ClientState) (e : CEvent) (rest : List CEvent),
        isMatchEvent e = true →
        runClient args st (e :: rest) =
          ((clientStep args st e).1, [CAction.consume e]) ∧
          (clientStep args st e).1.toolsResult.isSome = true) ∧
      (∀ (st : ClientState) (e : CEvent) (rest : List CEvent),
        (e.name == "endpoint") = false → isMatchEvent e = false →
        ((e.name == "message") = true → e.parsed.isSome = true) →
        e.elapsed > args.maxWait →
        runClient args st (e :: rest) = (st, [CAction.consume e])) := by
  refine ⟨fun err => rfl, ?_, ?_, ?_⟩
  · intro evs hall
    have h1 := runClient_toolsResult_none args evs initClientState rfl hall
    simp [mainResult, h1]
  · intro st e rest hm
    obtain ⟨hhalt, hposts, htools, _⟩ :=
      @clientStep_match args st e hm
    constructor
    · simp only [runClient, hhalt, if_true, hposts]
    · exact htools
  · intro st e rest hn hm hp hb
    have hstep := @clientStep_check args st e hn hm hp
    rw [decide_eq_true hb] at hstep
    simp only [runClient, hstep, if_true]

/-- Witness for C8: a request error exits 1; a single unmatched event exits
1; a stream whose first event exceeds the budget stops immediately. -/
theorem c8_stop_conditions_witness :
    mainResult ⟨"http://x", 15⟩ (.error "boom") = 1 ∧
      mainResult ⟨"http://x", 15⟩ (.ok [⟨"message", "x", none, 0⟩]) = 1 ∧
      runClient ⟨"http://x", 15⟩ initClientState
          [⟨"other", "d", none, 100⟩, ⟨"other", "d2", none, 1⟩] =
        (initClientState, [CAction.consume ⟨"other", "d", none, 100⟩]) := by
  refine ⟨(c8_stop_conditions ⟨"http://x", 15⟩).1 "boom",
    (c8_stop_conditions ⟨"http://x", 15⟩).2.1 _ (by decide), ?_⟩
  exact (c8_stop_conditions ⟨"http://x", 15⟩).2.2.2 initClientState
    ⟨"other", "d", none, 100⟩ [⟨"other", "d2", none, 1⟩]
    (by decide) (by decide) (by decide) (by norm_num)

/-- C10 counterexample: the claim says a `message` event carrying the
matching id but no `"result"` key never terminates the loop.  Here such an
event arrives after the wait budget (elapsed 100 > 15), reaches the budget
check, and terminates the loop: the second event is never consumed and the
run exits 1. -/
theorem c10_counterexample :
    (runClient ⟨"http://x", 15⟩ initClientState
        [⟨"message", "e", some ⟨some (JsonId.str "list-1"), none⟩, 100⟩,
          ⟨"message", "f", none, 101⟩]).2 =
      [CAction.consume
          ⟨"message", "e", some ⟨some (JsonId.str "list-1"), none⟩, 100⟩] ∧
      mainResult ⟨"http://x", 15⟩
        (.ok [⟨"message", "e", some ⟨some (JsonId.str "list-1"), none⟩, 100⟩,
          ⟨"message", "f", none, 101⟩]) = 1 := by
  decide

/-- C10 amended: the probe exits 0 only when some consumed `message` event
decodes to a JSON body with `id` equal to `list-1` and a `"result"` key; a
`message` event carrying the matching id but no `"result"` key is not
accepted — it leaves the state unchanged and ends the loop only through the
wait-budget check; and a non-JSON `message` payload is skipped without
aborting and without reaching the budget check. -/
theorem c10_exit_conditions (args : ProbeArgs) :
    (∀ evs : List CEvent, mainResult args (.ok evs) = 0 →
      ∃ x, x ∈ evs ∧ isMatchEvent x = true) ∧
      (∀ (st : ClientState) (e : CEvent) (m : JsonMsg),
        e.name = "message" → e.parsed = some m →
        m.msgId = some (JsonId.str listId) → m.result = none →
        clientStep args st e = (st, [], decide (e.elapsed > args.maxWait))) ∧
      (∀ (st : ClientState) (e : CEvent),
        e.name = "message" → e.parsed = none →
        clientStep args st e = (st, [], false)) := by
  refine ⟨?_, ?_, ?_⟩
  · intro evs h0
    by_contra hne
    push_neg at hne
    have hall : ∀ x ∈ evs, isMatchEvent x = false := by
      intro x hx
      simpa using hne x hx
    have h1 := runClient_toolsResult_none args evs initClientState rfl hall
    simp [mainResult, h1] at h0
  · intro st e m he hp hid hr
    have hn : (e.name == "endpoint") = false := by simp [he]
    have hm : isMatchEvent e = false := by
      unfold isMatchEvent
      simp [he, hp, hid, hr]
    exact clientStep_check hn hm (fun _ => by simp [hp])
  · intro st e he hp
    have hn : (e.name == "endpoint") = false := by simp [he]
    unfold clientStep
    simp only [hn, Bool.false_and, Bool.false_eq_true, if_false, he, hp]
    simp

/-- Witness for C10: a matched stream exits 0 and contains a matching event;
an error response with the matching id yields the budget-check outcome; a
non-JSON message is skipped. -/
theorem c10_exit_conditions_witness :
    (∃ x, x ∈ [(⟨"message", "ok",
          some ⟨some (JsonId.str "list-1"), some ⟨some []⟩⟩, 0⟩ : CEvent)] ∧
        isMatchEvent x = true) ∧
      clientStep ⟨"http://x", 15⟩ initClientState
          ⟨"message", "e", some ⟨some (JsonId.str "list-1"), none⟩, 3⟩ =
        (initClientState, [], false) ∧
      clientStep ⟨"http://x", 15⟩ initClientState
          ⟨"message", "junk", none, 3⟩ = (initClientState, [], false) := by
  refine ⟨(c10_exit_conditions ⟨"http://x", 15⟩).1 _ (by decide), ?_, ?_⟩
  · have h := (c10_exit_conditions ⟨"http://x", 15⟩).2.1 initClientState
      ⟨"message", "e", some ⟨some (JsonId.str "list-1"), none⟩, 3⟩
      ⟨some (JsonId.str "list-1"), none⟩ rfl rfl rfl rfl
    simpa using h
  · exact (c10_exit_conditions ⟨"http://x", 15⟩).2.2 initClientState
      ⟨"message", "junk", none, 3⟩ rfl rfl

/-! ### Server route registration (claim C4) and POST rejection (claim C3) -/

/-- C4: for every configured SSE path and message path, the application
registers the POST message endpoint at both the normalised message path and
its trailing-slash variant, bound to the same handler, with automatic slash
redirects disabled; a POST to either form is dispatched directly to the
message handler and never answered with a redirect. -/
theorem c4_both_slash_variants_accepted (ssePath messagePath : String) :
    (create_app ssePath messagePath).redirect_slashes = false ∧
      dispatch (create_app ssePath messagePath) "POST"
          (normMessagePath messagePath) =
        Dispatch.handled HandlerId.message ∧
      dispatch (create_app ssePath messagePath) "POST"
          (messagePathSlash (normMessagePath messagePath)) =
        Dispatch.handled HandlerId.message := by
  have hGET : (["GET"] : List String).contains "POST" = false := by decide
  have hPOST : (["POST"] : List String).contains "POST" = true := by decide
  refine ⟨rfl, ?_, ?_⟩
  · unfold dispatch findRoute create_app
    simp only [List.find?, hGET, hPOST, Bool.and_false, Bool.and_true,
      beq_self_eq_true]
    rfl
  · unfold dispatch findRoute create_app
    by_cases hs : pyEndswith (normMessagePath messagePath) "/" = true
    · have heq : messagePathSlash (normMessagePath messagePath) =
          normMessagePath messagePath := by
        unfold messagePathSlash
        rw [if_pos hs]
      rw [heq]
      simp only [List.find?, hGET, hPOST, Bool.and_false, Bool.and_true,
        beq_self_eq_true]
      rfl
    · have heq : messagePathSlash (normMessagePath messagePath) =
          normMessagePath messagePath ++ "/" := by
        unfold messagePathSlash
        rw [if_neg hs]
      have hne : (normMessagePath messagePath ==
          normMessagePath messagePath ++ "/") = false := by
        have : normMessagePath messagePath ≠
            normMessagePath messagePath ++ "/" := by
          intro h
          have hd := congrArg String.data h
          rw [String.data_append] at hd
          have hl := congrArg List.length hd
          simp at hl
        simpa using this
      rw [heq]
      simp only [List.find?, hGET, hPOST, Bool.and_false, Bool.and_true,
        beq_self_eq_true, hne]
      rfl

/-- C3: a POST carrying a session identifier that is unknown to the registry,
or whose session is no longer open, is rejected with a client-error status
(4xx); the registry — in particular every session inbound queue — is left
completely unchanged, so no part of the body is queued anywhere; and the
adapter's exception wrapper passes such a rejection through unchanged (while
an exception from the handler yields a 500, also not a success). -/
theorem c3_unknown_session_rejected (reg : List Session) (sid : String)
    (body : Option Envelope)
    (h : ∀ sess, lookupSession reg sid = some sess →
      sess.state ≠ SessionState.opened) :
    (400 ≤ (handle_post_message reg (some sid) body).1.status ∧
        (handle_post_message reg (some sid) body).1.status < 500) ∧
      (handle_post_message reg (some sid) body).2 = reg ∧
      message_asgi (.ok (handle_post_message reg (some sid) body).1) =
        (handle_post_message reg (some sid) body).1 ∧
      ∀ exc : String, (message_asgi (.error exc)).status = 500 := by
  refine ⟨?_, ?_, rfl, fun exc => rfl⟩ <;>
  · unfold handle_post_message
    cases hl : lookupSession reg sid with
    | none => simp [hl]
    | some sess =>
      cases hst : sess.state with
      | opened => exact absurd hst (h sess hl)
      | draining => simp [hl, hst]
      | closed => simp [hl, hst]

/-- Witness for C3: a POST with the unknown identifier `zzz` against a
registry holding one closed session is rejected with a 4xx and the registry
is untouched. -/
theorem c3_unknown_session_rejected_witness :
    400 ≤ (handle_post_message [⟨"abc", SessionState.closed, []⟩]
        (some "zzz")
        (some (Envelope.request (JsonId.str "init-1") "initialize"))).1.status ∧
      (handle_post_message [⟨"abc", SessionState.closed, []⟩] (some "zzz")
          (some (Envelope.request (JsonId.str "init-1") "initialize"))).2 =
        [⟨"abc", SessionState.closed, []⟩] := by
  have h := c3_unknown_session_rejected [⟨"abc", SessionState.closed, []⟩]
    "zzz" (some (Envelope.request (JsonId.str "init-1") "initialize"))
    (by intro sess hs; simp [lookupSession, List.find?] at hs)
  exact ⟨h.1.1, h.2.1⟩

end AzurePricingSSE
